import Mathlib

/-!
Verification of agentflow-studio (src/config.py, src/workflows/group_chat_workflow.py,
src/workflows/human_in_the_loop_workflow.py) against its natural-language specification.

The Python sources are shallowly embedded below.  Calls into Azure model agents are
modelled as oracle functions (the agent text responses are arbitrary data the code
merely threads through); everything the repository itself computes is translated
directly from the source.
-/

/-- Message role, from agent_framework Role as used by the sources (Role.USER,
Role.ASSISTANT). -/
inductive Role where
  | USER
  | ASSISTANT
deriving DecidableEq, Repr

/-- ChatMessage as the sources use it: a role and a text payload. -/
structure ChatMessage where
  role : Role
  text : String
deriving DecidableEq, Repr

/-! ## src/config.py -/

/-- Character-list prefix test (executable embedding of Python substring search,
step 1: does pattern p start the list l). -/
def leadsWith : List Char → List Char → Bool
  | [], _ => true
  | _ :: _, [] => false
  | p :: ps, c :: cs => p == c && leadsWith ps cs

/-- Character-list substring test: does pattern p occur contiguously inside l.
Embeds the Python expression `pat in s` on strings. -/
def occursIn (p : List Char) : List Char → Bool
  | [] => leadsWith p []
  | c :: cs => leadsWith p (c :: cs) || occursIn p cs

/-- validate_config from src/config.py, as a function of the two environment
values it reads (FOUNDRY_PROJECT_ENDPOINT, FOUNDRY_MODEL_DEPLOYMENT_NAME):
returns False when the endpoint is empty (Python falsy) or contains the
placeholder marker, True otherwise.  The deployment name is read by the module
but never inspected by validate_config. -/
def validate_config (endpoint deployment_name : String) : Bool :=
  if endpoint == "" || occursIn "<your-".data endpoint.data then false else true

/-! ## src/workflows/group_chat_workflow.py — GroupChatModerator.handle_topic -/

/-- One event dict produced by the group-chat moderator: keys type, agent,
round, content. -/
structure GCEvent where
  type : String
  agent : String
  round : Nat
  content : String
deriving DecidableEq, Repr

/-- Mutable state of GroupChatModerator during handle_topic: _round,
_conversation, _events. -/
structure GCState where
  round : Nat
  conversation : List ChatMessage
  events : List GCEvent
deriving Repr

/-- One inner-loop iteration of handle_topic (one agent turn in round r,
0-based): run the agent on the conversation, append the bracketed assistant
message, append the group_chat_turn event with round r+1. -/
def gcTurn (agents : String → List ChatMessage → String) (r : Nat)
    (s : GCState) (agent_name : String) : GCState :=
  let reply := agents agent_name s.conversation
  { round := s.round
    conversation := s.conversation ++ [⟨Role.ASSISTANT, "[" ++ agent_name ++ "]: " ++ reply⟩]
    events := s.events ++ [⟨"group_chat_turn", agent_name, r + 1, reply⟩] }

/-- One outer-loop iteration of handle_topic: the Python for-statement assigns
self._round := r, then every participant speaks once in turn order. -/
def gcRound (agents : String → List ChatMessage → String) (turn_order : List String)
    (s : GCState) (r : Nat) : GCState :=
  turn_order.foldl (gcTurn agents r) { s with round := r }

/-- The framing message seeded into the conversation by handle_topic. -/
def framingText (turn_order : List String) (topic : String) : String :=
  "You are in a group brainstorming meeting. The topic is:\n\n" ++ topic ++
  "\n\nParticipants: " ++ String.intercalate ", " turn_order ++
  ". Please contribute your perspective concisely (under 100 words). " ++
  "Build on what others have said."

/-- The final summary prompt appended before the ProductManager synthesis. -/
def summaryText : String :=
  "The brainstorming rounds are complete. As the Product Manager, " ++
  "please synthesize all the inputs into a concise launch plan with: " ++
  "1) Key messages, 2) Feature highlights, 3) Timeline, 4) Action items. " ++
  "Keep it under 200 words."

/-- GroupChatModerator.handle_topic: seeds the conversation with the framing
message, runs max_rounds round-robin rounds, then asks ProductManager for the
synthesis and returns the yielded event list.  agents is the oracle giving each
named agent response on a conversation (the dict built by
run_group_chat_workflow always contains the ProductManager key, so the
`.get or last` fallback of the source resolves to that key). -/
def handle_topic (agents : String → List ChatMessage → String)
    (turn_order : List String) (max_rounds : Nat) (topic : String) : List GCEvent :=
  let s0 : GCState :=
    { round := 0, conversation := [⟨Role.USER, framingText turn_order topic⟩], events := [] }
  let s1 := (List.range max_rounds).foldl (gcRound agents turn_order) s0
  let conv2 := s1.conversation ++ [⟨Role.USER, summaryText⟩]
  let final := agents "ProductManager" conv2
  s1.events ++ [⟨"output", "ProductManager", s1.round + 1, final⟩]

/-- The configured participant order of run_group_chat_workflow. -/
def turn_order₃ : List String := ["MarketingLead", "EngineeringLead", "ProductManager"]

/-- Projection of an event to its agent-independent shape (type, agent, round);
the content component is the arbitrary oracle text. -/
def gcShape (e : GCEvent) : String × String × Nat := (e.type, e.agent, e.round)

lemma foldl_gcTurn_round (agents : String → List ChatMessage → String) (r : Nat) :
    ∀ (tos : List String) (s : GCState), (tos.foldl (gcTurn agents r) s).round = s.round := by
  intro tos
  induction tos with
  | nil => intro s; rfl
  | cons n ns ih => intro s; simpa [gcTurn] using ih _

lemma foldl_gcTurn_shape (agents : String → List ChatMessage → String) (r : Nat) :
    ∀ (tos : List String) (s : GCState),
      ((tos.foldl (gcTurn agents r) s).events).map gcShape =
        s.events.map gcShape ++ tos.map (fun n => ("group_chat_turn", n, r + 1)) := by
  intro tos
  induction tos with
  | nil => intro s; simp
  | cons n ns ih =>
      intro s
      simp only [List.foldl_cons, List.map_cons]
      rw [ih]
      simp [gcTurn, gcShape]

lemma gcRound_round (agents : String → List ChatMessage → String)
    (turn_order : List String) (s : GCState) (r : Nat) :
    (gcRound agents turn_order s r).round = r := by
  simp [gcRound, foldl_gcTurn_round]

lemma gcRound_shape (agents : String → List ChatMessage → String)
    (turn_order : List String) (s : GCState) (r : Nat) :
    ((gcRound agents turn_order s r).events).map gcShape =
      s.events.map gcShape ++ turn_order.map (fun n => ("group_chat_turn", n, r + 1)) := by
  simp [gcRound, foldl_gcTurn_shape]

lemma foldl_gcRound_shape (agents : String → List ChatMessage → String)
    (turn_order : List String) :
    ∀ (R : Nat) (s : GCState),
      (((List.range R).foldl (gcRound agents turn_order) s).events).map gcShape =
        s.events.map gcShape ++
          ((List.range R).map
            (fun r => turn_order.map (fun n => ("group_chat_turn", n, r + 1)))).flatten := by
  intro R
  induction R with
  | zero => intro s; simp
  | succ R ih =>
      intro s
      rw [List.range_succ, List.foldl_append]
      simp only [List.foldl_cons, List.foldl_nil]
      rw [gcRound_shape, ih]
      simp [List.append_assoc]

lemma foldl_gcRound_round (agents : String → List ChatMessage → String)
    (turn_order : List String) :
    ∀ (R : Nat) (s : GCState), 0 < R →
      (((List.range R).foldl (gcRound agents turn_order) s)).round = R - 1 := by
  intro R
  induction R with
  | zero => intro s h; omega
  | succ R _ =>
      intro s _
      rw [List.range_succ, List.foldl_append]
      simp only [List.foldl_cons, List.foldl_nil]
      rw [gcRound_round]
      omega

lemma join_rounds_eq :
    ∀ R : Nat,
      ((List.range R).map
        (fun r => turn_order₃.map (fun n => ("group_chat_turn", n, r + 1)))).flatten =
      (List.range (3 * R)).map
        (fun i => (("group_chat_turn" : String), turn_order₃.getD (i % 3) "", i / 3 + 1)) := by
  intro R
  induction R with
  | zero => simp
  | succ R ih =>
      rw [List.range_succ, List.map_append, List.flatten_append, ih]
      have h3 : 3 * (R + 1) = 3 * R + 3 := by ring
      rw [h3, List.range_add, List.map_append, List.map_map]
      congr 1
      have hr : List.range 3 = [0, 1, 2] := by decide
      rw [hr]
      simp only [List.map_cons, List.map_nil, Function.comp]
      simp [turn_order₃, Nat.mul_add_mod, Nat.mul_add_div (show 0 < 3 by decide)]

lemma leadsWith_iff (p : List Char) : ∀ l : List Char, leadsWith p l = true ↔ p <+: l := by
  induction p with
  | nil => intro l; simp [leadsWith]
  | cons a ps ih =>
      intro l
      cases l with
      | nil => simp [leadsWith]
      | cons c cs =>
          simp only [leadsWith, Bool.and_eq_true, beq_iff_eq, ih, List.cons_prefix_cons]

lemma occursIn_iff (p : List Char) : ∀ l : List Char, occursIn p l = true ↔ p <:+: l := by
  intro l
  induction l with
  | nil => simp [occursIn, leadsWith_iff, List.prefix_nil, List.infix_nil]
  | cons c cs ih => simp [occursIn, leadsWith_iff, ih, List.infix_cons_iff]

/-- C1: for every topic, every oracle of agent responses, and every round count
R >= 1, handle_topic with participant order [MarketingLead, EngineeringLead,
ProductManager] yields exactly 3*R group_chat_turn events — turn i (0-based)
spoken by participant i % 3 of the configured order with round field i/3 + 1,
so each round lists the participants in configured order and round k+1 follows
round k — followed by exactly one output (synthesis) event. -/
theorem handle_topic_round_robin_shape (agents : String → List ChatMessage → String)
    (topic : String) (R : Nat) (hR : 1 ≤ R) :
    (handle_topic agents turn_order₃ R topic).map gcShape =
      (List.range (3 * R)).map
        (fun i => (("group_chat_turn" : String), turn_order₃.getD (i % 3) "", i / 3 + 1))
      ++ [("output", "ProductManager", R)] := by
  unfold handle_topic
  rw [List.map_append, foldl_gcRound_shape, join_rounds_eq]
  rw [foldl_gcRound_round agents turn_order₃ R _ (by omega)]
  simp [gcShape, Nat.sub_add_cancel hR]

/-- Witness for C1 at R = 2: six turn events in order A1,B1,C1,A2,B2,C2 and
then the single output event. -/
theorem handle_topic_round_robin_shape_witness :
    (handle_topic (fun _ _ => "ok") turn_order₃ 2 "topic").map gcShape =
      (List.range (3 * 2)).map
        (fun i => (("group_chat_turn" : String), turn_order₃.getD (i % 3) "", i / 3 + 1))
      ++ [("output", "ProductManager", 2)] :=
  handle_topic_round_robin_shape (fun _ _ => "ok") "topic" 2 (by decide)

/-- C10: with max_rounds = 0 the round-robin loop body never runs, so
handle_topic yields no group_chat_turn event and exactly one output event; the
Python loop variable _round keeps its initial value 0, so that output event
carries round field 0 + 1 = 1. -/
theorem handle_topic_zero_rounds_single_output
    (agents : String → List ChatMessage → String) (topic : String) :
    (handle_topic agents turn_order₃ 0 topic).map gcShape =
      [("output", "ProductManager", 1)] := by
  unfold handle_topic
  simp [gcShape]

/-- C9: validate_config returns true exactly when the FOUNDRY_PROJECT_ENDPOINT
value is non-empty and does not contain the substring <your- ; a non-empty
placeholder endpoint is rejected, and the FOUNDRY_MODEL_DEPLOYMENT_NAME value
never affects the result. -/
theorem validate_config_characterization (endpoint deployment_name : String) :
    (validate_config endpoint deployment_name = true ↔
      endpoint ≠ "" ∧ ¬ ("<your-".data <:+: endpoint.data))
    ∧ (∀ other_deployment : String,
        validate_config endpoint deployment_name = validate_config endpoint other_deployment)
    ∧ validate_config "https://<your-project>.services.ai.azure.com" deployment_name = false := by
  refine ⟨?_, fun _ => rfl, rfl⟩
  unfold validate_config
  by_cases he : endpoint = ""
  · subst he; simp
  · have hb : (endpoint == "") = false := by simpa using he
    constructor
    · intro hv
      refine ⟨he, fun hinf => ?_⟩
      rw [← occursIn_iff] at hinf
      simp [hb, hinf] at hv
    · rintro ⟨-, hni⟩
      have hocc : occursIn "<your-".data endpoint.data = false := by
        cases h : occursIn "<your-".data endpoint.data
        · rfl
        · exact absurd ((occursIn_iff _ _).mp h) hni
      simp [hb, hocc]

/-! ## src/workflows/human_in_the_loop_workflow.py -/

/-- One UI-facing event dict built by HumanInTheLoopSession._event_to_dict:
keys type, agent, content. -/
structure Event where
  type : String
  agent : String
  content : String
deriving DecidableEq, Repr

/-- Raw agent_framework workflow events as the session code distinguishes them
(WorkflowStatusEvent, WorkflowOutputEvent, RequestInfoEvent, anything else). -/
inductive WfEvent where
  | status (state : String)
  | output (data : String)
  | requestInfo (source_executor_id : String) (analysis_summary : String) (request_id : String)
  | other (class_name : String) (executor_id : String) (content : String)
deriving DecidableEq, Repr

/-- A WorkflowRunResult as the session code consumes it: the data-plane event
list, the status timeline, and the terminal run state. -/
structure RunResult where
  events : List WfEvent
  statusTimeline : List WfEvent
  state : String
deriving DecidableEq, Repr

/-- HumanInTheLoopSession._event_to_dict: every branch returns a non-empty
dict, so every event is kept. -/
def event_to_dict : WfEvent → Event
  | .status st => ⟨"status", "workflow", st⟩
  | .output d => ⟨"output", "processor", d⟩
  | .requestInfo src analysis _ => ⟨"request_info", src, analysis⟩
  | .other cls exid content => ⟨cls, exid, content⟩

/-- HumanInTheLoopSession._result_to_dicts: converts the data-plane events in
order, then the status timeline, appending each converted entry to the batch,
to the session log and to the on_event callback in that same order. -/
def result_to_dicts (r : RunResult) : List Event :=
  (r.events ++ r.statusTimeline).map event_to_dict

/-- The request ids carried by the RequestInfoEvents of a run result
(result.get_request_info_events()). -/
def requestIds (r : RunResult) : List String :=
  r.events.filterMap fun e =>
    match e with
    | .requestInfo _ _ rid => some rid
    | _ => none

/-- The errors HumanInTheLoopSession raises: RuntimeError when _workflow is
None, RuntimeError when _pending_request_id is None. -/
inductive SessionError where
  | workflowNotStarted
  | noPendingRequest
deriving DecidableEq, Repr

/-- HumanInTheLoopSession state: started models `_workflow is not None`,
pending models _pending_request_id, log models _events_log, trace is the
sequence of entries delivered to the on_event callbacks in delivery order. -/
structure HumanInTheLoopSession where
  started : Bool
  pending : Option String
  log : List Event
  trace : List Event
deriving DecidableEq, Repr

/-- A fresh session as built by HumanInTheLoopSession.__init__. -/
def HumanInTheLoopSession.init : HumanInTheLoopSession :=
  { started := false, pending := none, log := [], trace := [] }

/-- HumanInTheLoopSession.start: builds the workflow (no already-started
guard exists in the source), runs it — the run outcome is the oracle r —
stores the request id of each RequestInfoEvent in turn (so the last one wins,
and pending is left unchanged when the run requested nothing), and returns
the converted batch after logging it. -/
def HumanInTheLoopSession.start (r : RunResult) (s : HumanInTheLoopSession) :
    List Event × HumanInTheLoopSession :=
  let batch := result_to_dicts r
  ( batch,
    { started := true
      pending := (requestIds r).foldl (fun _ rid => some rid) s.pending
      log := s.log ++ batch
      trace := s.trace ++ batch } )

/-- HumanInTheLoopSession.submit_decision: raises when the workflow was never
started, raises when no pending request id is stored, otherwise sends the
decision (the resumed-run outcome is the oracle r), clears the pending id and
returns the converted batch after logging it. -/
def HumanInTheLoopSession.submit_decision (r : RunResult) (decision : String)
    (s : HumanInTheLoopSession) :
    Except SessionError (List Event × HumanInTheLoopSession) :=
  if s.started = false then .error .workflowNotStarted
  else
    match s.pending with
    | none => .error .noPendingRequest
    | some _ =>
        let batch := result_to_dicts r
        .ok ( batch,
              { s with pending := none, log := s.log ++ batch, trace := s.trace ++ batch } )

/-- HumanInTheLoopSession.all_events: `return list(self._events_log)` — the
current log contents (the copy semantics of `list(...)` is modelled separately
through an object store below). -/
def HumanInTheLoopSession.all_events (s : HumanInTheLoopSession) : List Event :=
  s.log

/-- C2 counterexample: the source of HumanInTheLoopSession.start contains no
already-started guard, so a second start call on an already-started session is
not rejected — it runs the workflow again and changes the event log, refuting
both halves of the claim at this concrete input. -/
theorem start_twice_counterexample :
    (HumanInTheLoopSession.start
        { events := [WfEvent.requestInfo "human-gate" "analysis" "req-1"],
          statusTimeline := [WfEvent.status "IDLE_WITH_PENDING_REQUESTS"],
          state := "IDLE_WITH_PENDING_REQUESTS" }
        (HumanInTheLoopSession.start
            { events := [WfEvent.requestInfo "human-gate" "analysis" "req-1"],
              statusTimeline := [WfEvent.status "IDLE_WITH_PENDING_REQUESTS"],
              state := "IDLE_WITH_PENDING_REQUESTS" }
            HumanInTheLoopSession.init).2).2.log ≠
      (HumanInTheLoopSession.start
          { events := [WfEvent.requestInfo "human-gate" "analysis" "req-1"],
            statusTimeline := [WfEvent.status "IDLE_WITH_PENDING_REQUESTS"],
            state := "IDLE_WITH_PENDING_REQUESTS" }
          HumanInTheLoopSession.init).2.log := by
  decide

/-- C2 amended: a second call to start on an already-started session is not
rejected and does not leave the session unchanged: it runs the workflow again,
returns the converted new-run batch, appends that batch to the existing event
log, and leaves the session started. -/
theorem start_twice_reruns_and_appends (r : RunResult) (s : HumanInTheLoopSession)
    (hs : s.started = true) :
    (HumanInTheLoopSession.start r s).1 = result_to_dicts r
    ∧ (HumanInTheLoopSession.start r s).2.log = s.log ++ result_to_dicts r
    ∧ (HumanInTheLoopSession.start r s).2.started = true := by
  refine ⟨rfl, rfl, rfl⟩

/-- Witness for the amended C2 at a concrete started session. -/
theorem start_twice_reruns_and_appends_witness :
    ((HumanInTheLoopSession.start
        { events := [], statusTimeline := [WfEvent.status "IDLE"], state := "IDLE" }
        { started := true, pending := none, log := [⟨"status", "workflow", "IDLE"⟩],
          trace := [⟨"status", "workflow", "IDLE"⟩] }).2.log =
      [⟨"status", "workflow", "IDLE"⟩] ++
        result_to_dicts
          { events := [], statusTimeline := [WfEvent.status "IDLE"], state := "IDLE" }) :=
  (start_twice_reruns_and_appends
    { events := [], statusTimeline := [WfEvent.status "IDLE"], state := "IDLE" }
    { started := true, pending := none, log := [⟨"status", "workflow", "IDLE"⟩],
      trace := [⟨"status", "workflow", "IDLE"⟩] } rfl).2.1

/-- C3: on a session with no outstanding pending request id — never started,
completed without suspending, or the request already consumed — submit_decision
raises instead of resuming: RuntimeError for the unstarted workflow, RuntimeError
for the missing pending request otherwise. -/
theorem submit_decision_no_pending_fails (r : RunResult) (decision : String)
    (s : HumanInTheLoopSession) (hp : s.pending = none) :
    HumanInTheLoopSession.submit_decision r decision s =
      .error (if s.started then SessionError.noPendingRequest
              else SessionError.workflowNotStarted) := by
  unfold HumanInTheLoopSession.submit_decision
  cases hs : s.started
  · simp [hs]
  · simp [hs, hp]

/-- Witness for C3 on a started session that holds no pending request. -/
theorem submit_decision_no_pending_fails_witness :
    HumanInTheLoopSession.submit_decision
        { events := [], statusTimeline := [], state := "IDLE" } "Approved"
        { started := true, pending := none, log := [], trace := [] } =
      .error (if true then SessionError.noPendingRequest
              else SessionError.workflowNotStarted) :=
  submit_decision_no_pending_fails
    { events := [], statusTimeline := [], state := "IDLE" } "Approved"
    { started := true, pending := none, log := [], trace := [] } rfl

lemma foldl_overwrite_getLast :
    ∀ (ids : List String) (p : Option String) (x : String),
      ids.getLast? = some x → ids.foldl (fun _ rid => some rid) p = some x := by
  intro ids
  induction ids with
  | nil => intro p x h; simp at h
  | cons a as ih =>
      intro p x h
      cases as with
      | nil => simp at h; simp [h]
      | cons b bs =>
          rw [List.getLast?_cons_cons] at h
          simpa using ih (some a) x h

/-- C4: the session stores at most one pending request id (an Option field);
whenever a run result carries request-info events, start leaves exactly the
last requested id outstanding; submit_decision on an outstanding request
succeeds and consumes it (pending becomes none), and any second submission on
the resulting session fails with the no-pending-request error, so the same
request is never submitted twice. -/
theorem pending_request_single_use (s : HumanInTheLoopSession) (r : RunResult)
    (decision rid : String) (hs : s.started = true) (hp : s.pending = some rid) :
    (∃ batch s', HumanInTheLoopSession.submit_decision r decision s = .ok (batch, s')
      ∧ s'.pending = none
      ∧ ∀ (r₂ : RunResult) (d₂ : String),
          HumanInTheLoopSession.submit_decision r₂ d₂ s' = .error SessionError.noPendingRequest)
    ∧ ∀ (r₃ : RunResult) (s₃ : HumanInTheLoopSession) (rid₃ : String),
        (requestIds r₃).getLast? = some rid₃ →
        (HumanInTheLoopSession.start r₃ s₃).2.pending = some rid₃ := by
  constructor
  · have hsub : HumanInTheLoopSession.submit_decision r decision s =
        .ok (result_to_dicts r,
          { started := s.started, pending := none, log := s.log ++ result_to_dicts r,
            trace := s.trace ++ result_to_dicts r }) := by
      unfold HumanInTheLoopSession.submit_decision
      simp [hs, hp]
    refine ⟨_, _, hsub, rfl, ?_⟩
    intro r₂ d₂
    unfold HumanInTheLoopSession.submit_decision
    simp [hs]
  · intro r₃ s₃ rid₃ hlast
    exact foldl_overwrite_getLast (requestIds r₃) s₃.pending rid₃ hlast

/-- Witness for C4 on a concrete suspended session. -/
theorem pending_request_single_use_witness :
    (∃ batch s',
      HumanInTheLoopSession.submit_decision
          { events := [WfEvent.output "done"], statusTimeline := [], state := "IDLE" }
          "Approved"
          { started := true, pending := some "req-1", log := [], trace := [] } =
        .ok (batch, s')
      ∧ s'.pending = none
      ∧ ∀ (r₂ : RunResult) (d₂ : String),
          HumanInTheLoopSession.submit_decision r₂ d₂ s' = .error SessionError.noPendingRequest)
    ∧ ∀ (r₃ : RunResult) (s₃ : HumanInTheLoopSession) (rid₃ : String),
        (requestIds r₃).getLast? = some rid₃ →
        (HumanInTheLoopSession.start r₃ s₃).2.pending = some rid₃ :=
  pending_request_single_use
    { started := true, pending := some "req-1", log := [], trace := [] }
    { events := [WfEvent.output "done"], statusTimeline := [], state := "IDLE" }
    "Approved" "req-1" rfl rfl

/-- HumanGateExecutor.handle_human_response: takes the preserved pending
messages (`self._pending_messages or []`), appends one user-role message
recording the manager decision, and sends the list downstream. -/
def handle_human_response (pending_messages : Option (List ChatMessage))
    (response : String) : List ChatMessage :=
  (pending_messages.getD []) ++ [⟨Role.USER, "Manager decision: " ++ response⟩]

/-- ProcessorExecutor.handle: runs the processor agent on the received
messages and yields its text as the workflow output. -/
def ProcessorExecutor.handle (agent_run : List ChatMessage → String)
    (messages : List ChatMessage) : String :=
  agent_run messages

/-- AnalystExecutor.handle: wraps the input in a singleton list, runs the
analyst agent (which may fail), extends with the response messages and sends
the result downstream.  The oracle returns the response messages or the
raised error. -/
def AnalystExecutor.handle (agent_run : List ChatMessage → Except String (List ChatMessage))
    (message : ChatMessage) : Except String (List ChatMessage) :=
  match agent_run [message] with
  | .error e => .error e
  | .ok response_messages => .ok ([message] ++ response_messages)

/-- HumanGateExecutor.receive_analysis, analysis-text extraction: the text of
the last message (empty when there is none), truncated to 500 characters for
the request payload. -/
def extract_analysis (messages : List ChatMessage) : String :=
  (match messages.getLast? with
   | none => ""
   | some m => m.text).take 500

/-- Modelled from the spec: the workflow engine of the external
agent_framework package (workflow.send_responses routing) is not under src.
Per the spec, send_responses routes the decision to the response handler of
the gate stage, the pipeline resumes at the gate successor — the processor,
per the add_edge calls in HumanInTheLoopSession.start — and runs to
completion, the processor output becoming the output event of the resumed
run result. -/
def gateResume (processor_agent : List ChatMessage → String)
    (pending_messages : Option (List ChatMessage)) (decision : String) : RunResult :=
  { events := [.output (ProcessorExecutor.handle processor_agent
                  (handle_human_response pending_messages decision))]
    statusTimeline := [.status "WorkflowRunState.IDLE"]
    state := "IDLE" }

/-- C5: on a suspended session, submit_decision folds the decision into the
preserved context as exactly one appended user-role entry reading
Manager decision: d, placed after every preserved message; the resumed run
reaches the processor, whose output over exactly that extended context is
returned among the new events, all of which are appended to the session log. -/
theorem submit_decision_folds_and_resumes
    (processor_agent : List ChatMessage → String) (preserved : List ChatMessage)
    (d rid : String) (s : HumanInTheLoopSession)
    (hs : s.started = true) (hp : s.pending = some rid) :
    handle_human_response (some preserved) d =
      preserved ++ [⟨Role.USER, "Manager decision: " ++ d⟩]
    ∧ ∃ s', HumanInTheLoopSession.submit_decision (gateResume processor_agent (some preserved) d) d s =
        .ok ([⟨"output", "processor",
                processor_agent (preserved ++ [⟨Role.USER, "Manager decision: " ++ d⟩])⟩,
              ⟨"status", "workflow", "WorkflowRunState.IDLE"⟩], s')
        ∧ s'.log = s.log ++
            [⟨"output", "processor",
                processor_agent (preserved ++ [⟨Role.USER, "Manager decision: " ++ d⟩])⟩,
             ⟨"status", "workflow", "WorkflowRunState.IDLE"⟩]
        ∧ s'.pending = none := by
  refine ⟨rfl, ?_⟩
  have hsub : HumanInTheLoopSession.submit_decision (gateResume processor_agent (some preserved) d) d s =
      .ok (result_to_dicts (gateResume processor_agent (some preserved) d),
        { started := s.started, pending := none,
          log := s.log ++ result_to_dicts (gateResume processor_agent (some preserved) d),
          trace := s.trace ++ result_to_dicts (gateResume processor_agent (some preserved) d) }) := by
    unfold HumanInTheLoopSession.submit_decision
    simp [hs, hp]
  exact ⟨_, hsub, rfl, rfl⟩

/-- Witness for C5 on a concrete suspended session and processor oracle. -/
theorem submit_decision_folds_and_resumes_witness :
    handle_human_response (some [⟨Role.USER, "expense"⟩]) "Approved" =
      [(⟨Role.USER, "expense"⟩ : ChatMessage)] ++ [⟨Role.USER, "Manager decision: Approved"⟩]
    ∧ ∃ s', HumanInTheLoopSession.submit_decision
          (gateResume (fun ms => toString ms.length)
            (some [⟨Role.USER, "expense"⟩]) "Approved") "Approved"
          { started := true, pending := some "req-1", log := [], trace := [] } =
        .ok ([⟨"output", "processor",
                toString ([(⟨Role.USER, "expense"⟩ : ChatMessage)] ++
                    [(⟨Role.USER, "Manager decision: Approved"⟩ : ChatMessage)]).length⟩,
              ⟨"status", "workflow", "WorkflowRunState.IDLE"⟩], s')
        ∧ s'.log = [] ++
            [⟨"output", "processor",
                toString ([(⟨Role.USER, "expense"⟩ : ChatMessage)] ++
                    [(⟨Role.USER, "Manager decision: Approved"⟩ : ChatMessage)]).length⟩,
             ⟨"status", "workflow", "WorkflowRunState.IDLE"⟩]
        ∧ s'.pending = none :=
  submit_decision_folds_and_resumes
    (fun ms => toString ms.length)
    [⟨Role.USER, "expense"⟩] "Approved" "req-1"
    { started := true, pending := some "req-1", log := [], trace := [] } rfl rfl

/-- A caller-facing session operation together with the oracle run result it
observes. -/
inductive SessionOp where
  | startOp (r : RunResult)
  | submitOp (r : RunResult) (decision : String)

/-- Effect of one caller-facing operation: the next session state and the
event batch the operation returned (a raised error returns no batch and
leaves the session unchanged). -/
def applyOp (s : HumanInTheLoopSession) : SessionOp → HumanInTheLoopSession × List Event
  | .startOp r =>
      let p := HumanInTheLoopSession.start r s
      (p.2, p.1)
  | .submitOp r d =>
      match HumanInTheLoopSession.submit_decision r d s with
      | .ok (batch, s') => (s', batch)
      | .error _ => (s, [])

/-- Runs a sequence of caller-facing operations, collecting the batch each
returned. -/
def runOps : HumanInTheLoopSession → List SessionOp → HumanInTheLoopSession × List (List Event)
  | s, [] => (s, [])
  | s, op :: ops =>
      let p := applyOp s op
      let q := runOps p.1 ops
      (q.1, p.2 :: q.2)

lemma applyOp_log (s : HumanInTheLoopSession) (op : SessionOp) :
    (applyOp s op).1.log = s.log ++ (applyOp s op).2 := by
  cases op with
  | startOp r => rfl
  | submitOp r d =>
      unfold applyOp HumanInTheLoopSession.submit_decision
      cases hs : s.started
      · simp
      · cases hp : s.pending <;> simp [hs, hp]

lemma applyOp_trace (s : HumanInTheLoopSession) (op : SessionOp) :
    (applyOp s op).1.trace = s.trace ++ (applyOp s op).2 := by
  cases op with
  | startOp r => rfl
  | submitOp r d =>
      unfold applyOp HumanInTheLoopSession.submit_decision
      cases hs : s.started
      · simp
      · cases hp : s.pending <;> simp [hs, hp]

lemma runOps_log : ∀ (ops : List SessionOp) (s : HumanInTheLoopSession),
    (runOps s ops).1.log = s.log ++ ((runOps s ops).2).flatten
    ∧ (runOps s ops).1.trace = s.trace ++ ((runOps s ops).2).flatten := by
  intro ops
  induction ops with
  | nil => intro s; simp [runOps]
  | cons op ops ih =>
      intro s
      unfold runOps
      constructor
      · rw [(ih _).1]
        simp [applyOp_log, List.append_assoc]
      · rw [(ih _).2]
        simp [applyOp_trace, List.append_assoc]

/-- C6: over any sequence of caller-facing operations on a fresh session, the
event log is append-only (each operation only appends its returned batch),
the on_event callback receives exactly the logged entries in the same order,
and re-reading the log afterwards through all_events yields exactly the
concatenation, in order, of the batches returned by the start and
submit_decision calls. -/
theorem event_log_append_only_and_stable (ops : List SessionOp) :
    (runOps HumanInTheLoopSession.init ops).1.all_events =
      ((runOps HumanInTheLoopSession.init ops).2).flatten
    ∧ (runOps HumanInTheLoopSession.init ops).1.trace =
        (runOps HumanInTheLoopSession.init ops).1.log
    ∧ ∀ (s : HumanInTheLoopSession) (op : SessionOp),
        (applyOp s op).1.log = s.log ++ (applyOp s op).2 := by
  refine ⟨?_, ?_, applyOp_log⟩
  · have h := (runOps_log ops HumanInTheLoopSession.init).1
    simpa [HumanInTheLoopSession.all_events, HumanInTheLoopSession.init] using h
  · rw [(runOps_log ops HumanInTheLoopSession.init).1,
        (runOps_log ops HumanInTheLoopSession.init).2]
    rfl

/-- Modelled from the spec: the failure semantics of the external
agent_framework engine is not under src.  Per the spec, a stage failure
terminates the run in the FAILED state, the final event of the run records
which stage failed, and no later stage executes (so no request_info and no
output event is produced); a successful analyst stage reaches the human gate,
which suspends the run with one pending request carrying the truncated
analysis summary.  The analyst stage itself (AnalystExecutor.handle) is
translated from src. -/
def run_from_start (agent_run : List ChatMessage → Except String (List ChatMessage))
    (input : ChatMessage) (rid : String) : RunResult :=
  match AnalystExecutor.handle agent_run input with
  | .error e =>
      { events := [.other "WorkflowFailedEvent" "analyst" e]
        statusTimeline := []
        state := "FAILED" }
  | .ok messages =>
      { events := [.requestInfo "human-gate" (extract_analysis messages) rid]
        statusTimeline := [.status "WorkflowRunState.IDLE_WITH_PENDING_REQUESTS"]
        state := "IDLE_WITH_PENDING_REQUESTS" }

/-- C7: when the analyst stage's underlying capability call fails, the run
terminates in the FAILED state, start returns the failure synchronously as its
batch, the final (and only) entry of the session log records the failing
stage, no later stage ran (no output and no request_info event exists), and no
pending request is left, so the session cannot be resumed. -/
theorem stage_failure_terminates_run
    (agent_run : List ChatMessage → Except String (List ChatMessage))
    (e : String) (input : ChatMessage) (rid : String)
    (hfail : agent_run [input] = .error e) :
    (run_from_start agent_run input rid).state = "FAILED"
    ∧ (HumanInTheLoopSession.start (run_from_start agent_run input rid)
        HumanInTheLoopSession.init).1 = [⟨"WorkflowFailedEvent", "analyst", e⟩]
    ∧ (HumanInTheLoopSession.start (run_from_start agent_run input rid)
        HumanInTheLoopSession.init).2.log.getLast? =
          some ⟨"WorkflowFailedEvent", "analyst", e⟩
    ∧ (∀ ev ∈ (HumanInTheLoopSession.start (run_from_start agent_run input rid)
          HumanInTheLoopSession.init).2.log,
        ev.type ≠ "output" ∧ ev.type ≠ "request_info")
    ∧ (HumanInTheLoopSession.start (run_from_start agent_run input rid)
        HumanInTheLoopSession.init).2.pending = none := by
  have hrun : run_from_start agent_run input rid =
      { events := [.other "WorkflowFailedEvent" "analyst" e]
        statusTimeline := []
        state := "FAILED" } := by
    unfold run_from_start AnalystExecutor.handle
    rw [hfail]
  rw [hrun]
  refine ⟨rfl, rfl, rfl, ?_, rfl⟩
  intro ev hev
  simp [HumanInTheLoopSession.start, HumanInTheLoopSession.init, result_to_dicts,
    event_to_dict] at hev
  subst hev
  exact ⟨by simp, by simp⟩

/-- Witness for C7 with an analyst oracle that always raises. -/
theorem stage_failure_terminates_run_witness :
    (run_from_start (fun _ => .error "rate limited") ⟨Role.USER, "expense"⟩ "req-1").state = "FAILED"
    ∧ (HumanInTheLoopSession.start
        (run_from_start (fun _ => .error "rate limited") ⟨Role.USER, "expense"⟩ "req-1")
        HumanInTheLoopSession.init).1 = [⟨"WorkflowFailedEvent", "analyst", "rate limited"⟩]
    ∧ (HumanInTheLoopSession.start
        (run_from_start (fun _ => .error "rate limited") ⟨Role.USER, "expense"⟩ "req-1")
        HumanInTheLoopSession.init).2.log.getLast? =
          some ⟨"WorkflowFailedEvent", "analyst", "rate limited"⟩
    ∧ (∀ ev ∈ (HumanInTheLoopSession.start
          (run_from_start (fun _ => .error "rate limited") ⟨Role.USER, "expense"⟩ "req-1")
          HumanInTheLoopSession.init).2.log,
        ev.type ≠ "output" ∧ ev.type ≠ "request_info")
    ∧ (HumanInTheLoopSession.start
        (run_from_start (fun _ => .error "rate limited") ⟨Role.USER, "expense"⟩ "req-1")
        HumanInTheLoopSession.init).2.pending = none :=
  stage_failure_terminates_run (fun _ => .error "rate limited") "rate limited"
    ⟨Role.USER, "expense"⟩ "req-1" rfl

/-- A heap of Python list objects holding event dicts, addressed by object
reference; models aliasing between the internal _events_log and the list
all_events returns. -/
abbrev EventStore := List (List Event)

/-- Reading the list object behind a reference. -/
def readRef (st : EventStore) (r : Nat) : List Event :=
  List.getD st r []

/-- In-place mutation of the list object behind a reference (what a caller
could do to a list it was handed). -/
def writeRef (st : EventStore) (r : Nat) (l : List Event) : EventStore :=
  List.set st r l

/-- A session as a Python object: its _events_log is a reference into the
store. -/
structure SessionObj where
  logRef : Nat

/-- HumanInTheLoopSession.all_events at the object level:
`return list(self._events_log)` allocates a fresh list object with a copy of
the current log contents and returns the fresh reference. -/
def all_events_obj (st : EventStore) (s : SessionObj) : EventStore × Nat :=
  (st ++ [readRef st s.logRef], st.length)

/-- C8: all_events hands back a snapshot copy: the returned reference is a
fresh object distinct from the internal log, its contents equal the log at
call time, the call mutates no pre-existing object (in particular not the
log), and any mutation of the returned list leaves the internal event log
unchanged. -/
theorem all_events_returns_snapshot_copy (st : EventStore) (s : SessionObj)
    (hval : s.logRef < st.length) :
    (all_events_obj st s).2 ≠ s.logRef
    ∧ readRef (all_events_obj st s).1 (all_events_obj st s).2 = readRef st s.logRef
    ∧ (∀ r', r' < st.length → readRef (all_events_obj st s).1 r' = readRef st r')
    ∧ ∀ mutated : List Event,
        readRef (writeRef (all_events_obj st s).1 (all_events_obj st s).2 mutated) s.logRef =
          readRef st s.logRef := by
  have hidx : ∀ r', r' < st.length → readRef (st ++ [readRef st s.logRef]) r' = readRef st r' := by
    intro r' hr'
    unfold readRef
    rw [List.getD_eq_getElem?_getD, List.getD_eq_getElem?_getD,
      List.getElem?_append_left hr', List.getD_eq_getElem?_getD]
  refine ⟨by simp [all_events_obj]; omega, ?_, hidx, ?_⟩
  · show readRef (st ++ [readRef st s.logRef]) st.length = readRef st s.logRef
    unfold readRef
    rw [List.getD_eq_getElem?_getD, List.getElem?_concat_length]
    rfl
  · intro mutated
    show readRef (List.set (st ++ [readRef st s.logRef]) st.length mutated) s.logRef =
      readRef st s.logRef
    unfold readRef
    rw [List.getD_eq_getElem?_getD, List.getElem?_set_ne (by omega),
      List.getElem?_append_left hval, ← List.getD_eq_getElem?_getD]

/-- Witness for C8 on a one-object store. -/
theorem all_events_returns_snapshot_copy_witness :
    (all_events_obj [[⟨"status", "workflow", "IDLE"⟩]] ⟨0⟩).2 ≠ (0 : Nat)
    ∧ readRef (all_events_obj [[⟨"status", "workflow", "IDLE"⟩]] ⟨0⟩).1
        (all_events_obj [[⟨"status", "workflow", "IDLE"⟩]] ⟨0⟩).2 =
        readRef [[⟨"status", "workflow", "IDLE"⟩]] 0
    ∧ (∀ r', r' < ([[⟨"status", "workflow", "IDLE"⟩]] : EventStore).length →
        readRef (all_events_obj [[⟨"status", "workflow", "IDLE"⟩]] ⟨0⟩).1 r' =
          readRef [[⟨"status", "workflow", "IDLE"⟩]] r')
    ∧ ∀ mutated : List Event,
        readRef (writeRef (all_events_obj [[⟨"status", "workflow", "IDLE"⟩]] ⟨0⟩).1
            (all_events_obj [[⟨"status", "workflow", "IDLE"⟩]] ⟨0⟩).2 mutated) 0 =
          readRef [[⟨"status", "workflow", "IDLE"⟩]] 0 :=
  all_events_returns_snapshot_copy [[⟨"status", "workflow", "IDLE"⟩]] ⟨0⟩ (by decide)
